import Mathlib

/-!
# Verification of the Fight_Data_analysis aggregation pipeline

Shallow embedding of `src/final_map.py`: the `load_data` cleaning /
joining / grouping stage and the `create_map` filtering / sorting /
truncation / ranking / fare-defaulting stage.  DataFrames are lists of
records; float measures are modelled as rationals; nullable cells are
`Option` values (pandas NaN = `none`).
-/

namespace FlightData

/-- Numeric value of a list of ASCII digit characters, most significant first
(the way `pd.to_numeric` reads a digit string). -/
def digitsVal (ds : List Char) : Nat :=
  ds.foldl (fun a c => a * 10 + (c.toNat - 48)) 0

/-- Split a character list at its first `.`, keeping what follows. -/
def breakDot : List Char → List Char × Option (List Char)
  | [] => ([], none)
  | c :: rest =>
      if c = '.' then ([], some rest)
      else
        let p := breakDot rest
        (c :: p.1, p.2)

/-- Decimal part of the `to_numeric` model: a run of digits, optionally
followed by `.` and a run of digits; anything else is null. -/
def coreNumeric (cs : List Char) : Option ℚ :=
  let p := breakDot cs
  match p.2 with
  | none =>
      if p.1 ≠ [] ∧ p.1.all Char.isDigit then some (digitsVal p.1) else none
  | some frac =>
      if p.1 ≠ [] ∧ frac ≠ [] ∧ p.1.all Char.isDigit ∧ frac.all Char.isDigit then
        some ((digitsVal p.1 : ℚ) + (digitsVal frac : ℚ) / (10 : ℚ) ^ frac.length)
      else none

/-- Model of `pd.to_numeric(..., errors='coerce')` on the plain decimal
strings this pipeline feeds it: an optional minus sign, a run of digits,
optionally followed by `.` and a run of digits.  Anything else coerces to
null (`none`), never to an error and never to zero. -/
def toNumeric (s : String) : Option ℚ :=
  match s.toList with
  | '-' :: rest => (coreNumeric rest).map (fun q => -q)
  | cs => coreNumeric cs

/-- Remove every occurrence of the given characters from a string
(model of `str.replace(r'[..]', '', regex=True)`). -/
def stripChars (bad : List Char) (s : String) : String :=
  String.mk (s.toList.filter (fun c => !bad.contains c))

/-- Fare-column coercion from `load_data`:
`str.replace(r'[\$,]', '')` then `pd.to_numeric(errors='coerce')`. -/
def parseFare (s : String) : Option ℚ :=
  toNumeric (stripChars ['$', ','] s)

/-- Passenger-column coercion from `load_data`:
`str.replace(r'[,\"]', '')` then `pd.to_numeric(errors='coerce')`. -/
def parsePassengers (s : String) : Option ℚ :=
  toNumeric (stripChars [',', '"'] s)

/-- Leftmost run of four consecutive digit characters, as a number
(model of `str.extract(r'(\d{4})')` followed by `to_numeric`). -/
def yearRun : List Char → Option Nat
  | c1 :: c2 :: c3 :: c4 :: rest =>
      if c1.isDigit && c2.isDigit && c3.isDigit && c4.isDigit then
        some (digitsVal [c1, c2, c3, c4])
      else yearRun (c2 :: c3 :: c4 :: rest)
  | _ => none

/-- Year extraction used on the observations table's `Year` column. -/
def extractYear (s : String) : Option Nat :=
  yearRun s.toList

/-! ## Record types for the three input tables -/

/-- A raw row of `Summary_By_Origin_Airport.csv`: all fields arrive as text
(the code re-coerces them itself). -/
structure ObsRow where
  code : String
  city : String
  yearRaw : String
  totalRaw : String
  domRaw : String
  intlRaw : String
deriving DecidableEq, Repr

/-- A row of `airports_location.csv`; latitude/longitude may be missing. -/
structure CoordRow where
  code : String
  latitude : Option ℚ
  longitude : Option ℚ
deriving DecidableEq, Repr

/-- A row of `AverageFare_USA.csv` after the header strip/rename: airport
code, year, and the currency-formatted average-fare text. -/
structure FareRow where
  code : String
  year : Nat
  avgFareRaw : String
deriving DecidableEq, Repr

/-! ## `load_data`: cleaning, joins, aggregation -/

/-- An observation row after numeric coercion and year extraction
(lines 27–35 of `final_map.py`).  All three passenger columns are coerced
with `errors='coerce'`, so they are nullable; the year is mandatory. -/
structure ObsClean where
  code : String
  city : String
  year : Nat
  total : Option ℚ
  dom : Option ℚ
  intl : Option ℚ
deriving DecidableEq, Repr

/-- Clean one observation row: coerce the passenger columns, extract the
4-digit year; a row whose year text has no 4-digit run is dropped
(`dropna(subset=['Year'])`). -/
def cleanObsRow (r : ObsRow) : Option ObsClean :=
  (extractYear r.yearRaw).map (fun y =>
    ⟨r.code, r.city, y, parsePassengers r.totalRaw, parsePassengers r.domRaw,
      parsePassengers r.intlRaw⟩)

/-- The cleaned observation table. -/
def cleanObs (obs : List ObsRow) : List ObsClean :=
  obs.filterMap cleanObsRow

/-- An observation row carrying its joined coordinates. -/
structure ObsLoc where
  code : String
  city : String
  year : Nat
  total : Option ℚ
  dom : Option ℚ
  intl : Option ℚ
  latitude : ℚ
  longitude : ℚ
deriving DecidableEq, Repr

/-- Left-merge with `airport_coords[['code','latitude','longitude']]` on the
airport code followed by `dropna(subset=['latitude','longitude'])`: each
observation row pairs with every matching coordinate row, and pairs whose
latitude or longitude is null — including the no-match case the left join
would fill with NaN — are dropped. -/
def joinCoords (rows : List ObsClean) (coords : List CoordRow) : List ObsLoc :=
  rows.flatMap (fun r =>
    (coords.filter (fun c => c.code == r.code)).filterMap (fun c =>
      match c.latitude, c.longitude with
      | some la, some lo => some ⟨r.code, r.city, r.year, r.total, r.dom, r.intl, la, lo⟩
      | _, _ => none))

/-- A fully joined row: fare is optional (left join keeps unmatched rows). -/
structure JoinedRow where
  code : String
  city : String
  year : Nat
  total : Option ℚ
  dom : Option ℚ
  intl : Option ℚ
  latitude : ℚ
  longitude : ℚ
  fare : Option ℚ
deriving DecidableEq, Repr

/-- Left-merge with `fare[['Origin Airport Code','Year','Avg Fare']]` on
(code, year): a row with no fare match keeps a null fare; a row with
matches is repeated once per match, each carrying that match's parsed
`Avg Fare` (itself possibly null). -/
def joinFare (rows : List ObsLoc) (fares : List FareRow) : List JoinedRow :=
  rows.flatMap (fun r =>
    let ms := fares.filter (fun f => f.code == r.code && f.year == r.year)
    if ms.isEmpty then
      [⟨r.code, r.city, r.year, r.total, r.dom, r.intl, r.latitude, r.longitude, none⟩]
    else
      ms.map (fun m =>
        ⟨r.code, r.city, r.year, r.total, r.dom, r.intl, r.latitude, r.longitude,
          parseFare m.avgFareRaw⟩))

/-- The groupby key of `annual_data`: (Year, Origin City Name, latitude,
longitude). -/
abbrev AggKey := Nat × String × ℚ × ℚ

def rowKey (r : JoinedRow) : AggKey := (r.year, r.city, r.latitude, r.longitude)

/-- A row of the cached `annual_data` aggregate. -/
structure AggRow where
  year : Nat
  city : String
  latitude : ℚ
  longitude : ℚ
  total : ℚ
  dom : ℚ
  intl : ℚ
  fare : Option ℚ
deriving DecidableEq, Repr

/-- Pandas `sum` over a nullable column: nulls are skipped, an all-null
group sums to 0. -/
def sumOpt (l : List (Option ℚ)) : ℚ :=
  (l.filterMap id).sum

/-- Pandas `mean` over a nullable column: nulls are skipped, an all-null
group has a null mean. -/
def meanOpt (l : List (Option ℚ)) : Option ℚ :=
  let v := l.filterMap id
  if v.isEmpty then none else some (v.sum / v.length)

/-- The aggregate row for one groupby key: sum the passenger measures,
take the mean of the fare measure. -/
def aggFor (rows : List JoinedRow) (k : AggKey) : AggRow :=
  let g := rows.filter (fun r => rowKey r == k)
  ⟨k.1, k.2.1, k.2.2.1, k.2.2.2,
    sumOpt (g.map (·.total)), sumOpt (g.map (·.dom)), sumOpt (g.map (·.intl)),
    meanOpt (g.map (·.fare))⟩

/-- `groupby(['Year','Origin City Name','latitude','longitude']).agg(...)`:
one output row per distinct key.  (Pandas emits groups in sorted key
order; we emit them in `dedup` order — every claim about this table is
insensitive to row order at this stage.) -/
def groupAgg (rows : List JoinedRow) : List AggRow :=
  ((rows.map rowKey).dedup).map (aggFor rows)

/-- The whole `load_data` pipeline up to the cached `annual_data` table. -/
def annualAggregate (obs : List ObsRow) (coords : List CoordRow)
    (fares : List FareRow) : List AggRow :=
  groupAgg (joinFare (joinCoords (cleanObs obs) coords) fares)

/-! ## `create_map`: filter, sort, truncate, rank, default the fare -/

/-- A row of the table `create_map` ranks.  The year-filtered path keeps a
`Year` column in the frame, but nothing after the filter reads it, so
both paths are modelled at city/location granularity. -/
structure CityAgg where
  city : String
  latitude : ℚ
  longitude : ℚ
  total : ℚ
  dom : ℚ
  intl : ℚ
  fare : Option ℚ
deriving DecidableEq, Repr

def toCityAgg (r : AggRow) : CityAgg :=
  ⟨r.city, r.latitude, r.longitude, r.total, r.dom, r.intl, r.fare⟩

/-- The all-years regroup key: (Origin City Name, latitude, longitude). -/
def cityKey (r : AggRow) : String × ℚ × ℚ := (r.city, r.latitude, r.longitude)

/-- The `else` branch of `create_map`: re-aggregate `annual_data` over the
collapsed year dimension, summing the passenger measures and averaging
the fare measure. -/
def regroupAllYears (agg : List AggRow) : List CityAgg :=
  ((agg.map cityKey).dedup).map (fun k =>
    let g := agg.filter (fun r => cityKey r == k)
    ⟨k.1, k.2.1, k.2.2,
      (g.map (·.total)).sum, (g.map (·.dom)).sum, (g.map (·.intl)).sum,
      meanOpt (g.map (·.fare))⟩)

/-- `data` before city/top-N selection: filter to the selected year, or
re-aggregate across all years. -/
def baseData (agg : List AggRow) : Option Nat → List CityAgg
  | some y => (agg.filter (fun r => r.year == y)).map toCityAgg
  | none => regroupAllYears agg

/-- `sort_values('Total Passengers', ascending=False)` — some permutation
of the table that is non-increasing in total passengers (the source does
not pin the relative order of ties; this model uses an insertion sort). -/
def sortDesc (l : List CityAgg) : List CityAgg :=
  l.insertionSort (fun a b => b.total ≤ a.total)

/-- The `elif top_n:` arm — a Python `top_n` of `0` is falsy and falls
through to the plain sort. -/
def selectTop (data : List CityAgg) : Option Nat → List CityAgg
  | some n => if n = 0 then sortDesc data else (sortDesc data).take n
  | none => sortDesc data

/-- The selection block of `create_map`: an active single-city filter
(a value other than `'All Cities'`/empty) bypasses sorting and top-N;
otherwise sort descending and optionally truncate. -/
def selectRows (data : List CityAgg) (nopt : Option Nat) (copt : Option String) :
    List CityAgg :=
  match copt with
  | some c =>
      if c = "All Cities" ∨ c = "" then selectTop data nopt
      else data.filter (fun r => r.city == c)
  | none => selectTop data nopt

/-- A returned row: `Rank` column added, null fares filled with 100. -/
structure ViewRow where
  city : String
  latitude : ℚ
  longitude : ℚ
  total : ℚ
  dom : ℚ
  intl : ℚ
  fare : ℚ
  rank : Nat
deriving DecidableEq, Repr

/-- `rank(method='min', ascending=False).astype(int)` followed by
`fillna(100)`: each row's rank is one plus the number of rows of the same
table with strictly greater total, and a null fare displays as 100. -/
def addRank (data : List CityAgg) : List ViewRow :=
  data.map (fun r =>
    ⟨r.city, r.latitude, r.longitude, r.total, r.dom, r.intl,
      r.fare.getD 100,
      1 + data.countP (fun s => decide (r.total < s.total))⟩)

/-- The data table returned by `create_map` (the figure is presentation
only; the hover-text column is string formatting over these fields). -/
def createMap (agg : List AggRow) (yopt : Option Nat) (nopt : Option Nat)
    (copt : Option String) : List ViewRow :=
  addRank (selectRows (baseData agg yopt) nopt copt)

/-- `create_map` with the cached aggregate passed as explicit state: the
body only reads `annual_data` (filters and `.copy()` allocate new frames,
`fillna` runs on the copy), so the cache comes back unchanged. -/
def createMapSt (agg : List AggRow) (yopt : Option Nat) (nopt : Option Nat)
    (copt : Option String) : List ViewRow × List AggRow :=
  (createMap agg yopt nopt copt, agg)

/-- Modelled from the spec: the anchor-city re-union step of the `rank`
contract, present in other variants of this repository but absent from
`src/final_map.py`.  "If an anchor-city allow-list is configured,
re-union any anchor city's row (deduplicated) even if it fell outside
the truncation": after truncating the ranked view to its first `n` rows,
append every anchor-city row of the full view not already retained. -/
def anchorUnion (full : List ViewRow) (n : Nat) (anchors : List String) :
    List ViewRow :=
  full.take n ++
    full.filter (fun r => anchors.contains r.city && !((full.take n).contains r))

/-- Min-rank of a row against a table: one plus the number of rows with
strictly greater total (the `method='min'` competition rank). -/
def minRank (l : List ViewRow) (r : ViewRow) : Nat :=
  1 + l.countP (fun s => decide (r.total < s.total))

/-! ## Concrete inputs used by the end-to-end scenarios -/

/-- Springfield observation rows for 2020: three distinct airports with
total passengers 100, 200 and 300. -/
def obsA : ObsRow := ⟨"AAA", "Springfield", "2020", "100", "10", "1"⟩

def obsB : ObsRow := ⟨"BBB", "Springfield", "2020", "200", "20", "2"⟩

def obsC : ObsRow := ⟨"CCC", "Springfield", "2020", "300", "30", "3"⟩

def springfieldObs : List ObsRow := [obsA, obsB, obsC]

/-- The three airports at pairwise distinct coordinates. -/
def coordsDistinct : List CoordRow :=
  [⟨"AAA", some 1, some 2⟩, ⟨"BBB", some 3, some 4⟩, ⟨"CCC", some 5, some 6⟩]

/-- The three airports sharing one coordinate pair. -/
def coordsShared : List CoordRow :=
  [⟨"AAA", some 1, some 2⟩, ⟨"BBB", some 1, some 2⟩, ⟨"CCC", some 1, some 2⟩]

/-- The fare cell each Springfield airport contributes to the joined
table: the parsed fare of its unique (code, 2020) match, or null when
there is no match. -/
def springfieldFareCells (fares : List FareRow) : List (Option ℚ) :=
  ["AAA", "BBB", "CCC"].map (fun c =>
    match fares.filter (fun f => f.code == c && f.year == 2020) with
    | [m] => parseFare m.avgFareRaw
    | _ => none)

end FlightData

namespace FlightData

/-! ## Claims -/

/-- **C1, counterexample.**  The claim fails on the code in three ways.
With the three Springfield airports at distinct coordinates the groupby
key (Year, City, latitude, longitude) produces three rows, not one.
With shared coordinates and no matching fare row the single aggregate
row stores a null average fare, not 100 (the 100 default happens later,
in `create_map`).  And with two fare rows for the same (airport, year)
the left merge duplicates that airport's observation row, so the summed
total is 700, not 600. -/
theorem claim_C1_counterexample :
    ¬ ((annualAggregate springfieldObs coordsDistinct []).length = 1) ∧
    ((annualAggregate springfieldObs coordsShared []).map (·.fare) = [none] ∧
      (none : Option ℚ) ≠ some 100) ∧
    ((annualAggregate springfieldObs coordsShared
        [⟨"AAA", 2020, "$50"⟩, ⟨"AAA", 2020, "$70"⟩]).map (·.total) = [700] ∧
      (700 : ℚ) ≠ 600) := by
  refine ⟨by decide, ⟨rfl, by decide⟩, ⟨?_, by norm_num⟩⟩
  rw [show (annualAggregate springfieldObs coordsShared
        [⟨"AAA", 2020, "$50"⟩, ⟨"AAA", 2020, "$70"⟩]).map (·.total) =
      [sumOpt [some 100, some 100, some 200, some 300]] from rfl]
  norm_num [sumOpt, List.filterMap_cons]

/-- A list of length at most one is empty or a singleton. -/
theorem eq_nil_or_singleton_of_length_le_one {α : Type} {l : List α}
    (h : l.length ≤ 1) : l = [] ∨ ∃ a, l = [a] := by
  match l with
  | [] => exact Or.inl rfl
  | [a] => exact Or.inr ⟨a, rfl⟩
  | a :: b :: t => simp at h

/-- A nonempty list all of whose elements equal `k` dedups to `[k]`. -/
theorem dedup_const_of_forall_eq {α : Type} [DecidableEq α] (l : List α) (k : α)
    (hne : l ≠ []) (h : ∀ x ∈ l, x = k) : l.dedup = [k] := by
  induction l with
  | nil => exact absurd rfl hne
  | cons a t ih =>
      have ha : a = k := h a (List.mem_cons_self a t)
      match t with
      | [] => simp [List.dedup, ha]
      | b :: t' =>
          have hb : b = k := h b (by simp)
          have hmem : a ∈ b :: t' := by rw [ha, hb]; exact List.mem_cons_self _ _
          rw [List.dedup_cons_of_mem hmem]
          exact ih (by simp) (fun x hx => h x (List.mem_cons_of_mem a hx))

/-- Grouping a nonempty table whose rows all share the key `k` yields
exactly the one aggregate row for `k`. -/
theorem groupAgg_const_key (rows : List JoinedRow) (k : AggKey) (hne : rows ≠ [])
    (h : ∀ r ∈ rows, rowKey r = k) : groupAgg rows = [aggFor rows k] := by
  rw [groupAgg, dedup_const_of_forall_eq (rows.map rowKey) k]
  · rfl
  · simpa using hne
  · intro x hx
    obtain ⟨r, hr, rfl⟩ := List.mem_map.mp hx
    exact h r hr

/-- **C1 (amended).**  For the observations input of exactly three
Springfield rows in 2020 from three distinct airports with total
passengers 100, 200, 300, *whose airports share one coordinate pair*,
and any fare table with at most one row per (airport, 2020) key, the
aggregate is a single Springfield/2020 row with summed total 600; its
average fare is the mean of the parsed fares of the matched fare rows,
and stays null when none matched — the 100 default is applied later, in
the ranked view, not in the aggregate. -/
theorem claim_C1_springfield_aggregate (fares : List FareRow)
    (hU : ∀ c : String,
      (fares.filter (fun f => f.code == c && f.year == 2020)).length ≤ 1) :
    annualAggregate springfieldObs coordsShared fares =
      [⟨2020, "Springfield", 1, 2, 600, 60, 6,
        meanOpt (springfieldFareCells fares)⟩] := by
  have hjoin : joinCoords (cleanObs springfieldObs) coordsShared =
      [⟨"AAA", "Springfield", 2020, some 100, some 10, some 1, 1, 2⟩,
       ⟨"BBB", "Springfield", 2020, some 200, some 20, some 2, 1, 2⟩,
       ⟨"CCC", "Springfield", 2020, some 300, some 30, some 3, 1, 2⟩] := rfl
  rw [annualAggregate, hjoin]
  rcases eq_nil_or_singleton_of_length_le_one (hU "AAA") with hA | ⟨mA, hA⟩ <;>
    rcases eq_nil_or_singleton_of_length_le_one (hU "BBB") with hB | ⟨mB, hB⟩ <;>
      rcases eq_nil_or_singleton_of_length_le_one (hU "CCC") with hC | ⟨mC, hC⟩ <;>
        · rw [joinFare]
          simp only [List.flatMap_cons, List.flatMap_nil, hA, hB, hC]
          simp only [List.isEmpty_nil, List.isEmpty_cons, if_true, if_false,
            Bool.false_eq_true, List.map_cons, List.map_nil, List.append_nil,
            List.nil_append, List.cons_append, List.singleton_append]
          rw [groupAgg_const_key _ (2020, "Springfield", 1, 2) (by simp)
            (by intro r hr; simp only [List.mem_cons, List.not_mem_nil, or_false] at hr
                rcases hr with rfl | rfl | rfl <;> rfl)]
          simp only [aggFor, rowKey, springfieldFareCells, List.map_cons,
            List.map_nil, hA, hB, hC]
          norm_num [sumOpt, meanOpt, List.filterMap_cons, List.filter_cons, hA, hB, hC]

/-- **C1 witness** for the amended theorem, at a one-row fare table whose
single row matches airport AAA. -/
theorem claim_C1_springfield_aggregate_witness :
    annualAggregate springfieldObs coordsShared [⟨"AAA", 2020, "$50"⟩] =
      [⟨2020, "Springfield", 1, 2, 600, 60, 6,
        meanOpt (springfieldFareCells [⟨"AAA", 2020, "$50"⟩])⟩] :=
  claim_C1_springfield_aggregate [⟨"AAA", 2020, "$50"⟩]
    (fun _ => List.length_filter_le _ _)

/-- **C6, counterexample.**  A raw year text whose first 4-digit run has
leading zeros survives cleaning with a value below 1000: the claim's
range [1000, 9999] does not hold. -/
theorem claim_C6_counterexample :
    (cleanObs [⟨"AAA", "Springfield", "0042", "100", "10", "1"⟩]).map (·.year) =
      [42] ∧ ¬ (1000 ≤ 42) := ⟨rfl, by omega⟩

/-- Every digit character's value is at most 9. -/
theorem digit_toNat_sub_le (c : Char) (h : c.isDigit = true) :
    c.toNat - 48 ≤ 9 := by
  simp only [Char.isDigit, decide_eq_true_eq, Bool.and_eq_true] at h
  obtain ⟨-, h2⟩ := h
  have : c.val ≤ ('9' : Char).val := h2
  have : c.val.toNat ≤ 57 := by
    simpa using this
  simp only [Char.toNat]
  omega

/-- A leftmost 4-digit run evaluates to at most 9999. -/
theorem yearRun_le (cs : List Char) (v : Nat) (h : yearRun cs = some v) :
    v ≤ 9999 := by
  induction cs with
  | nil => simp [yearRun] at h
  | cons c1 rest ih =>
      match rest with
      | [] => simp [yearRun] at h
      | [c2] => simp [yearRun] at h
      | [c2, c3] => simp [yearRun] at h
      | c2 :: c3 :: c4 :: t =>
          rw [yearRun] at h
          by_cases hd : (c1.isDigit && c2.isDigit && c3.isDigit && c4.isDigit) = true
          · rw [if_pos hd] at h
            simp only [Bool.and_eq_true] at hd
            obtain ⟨⟨⟨h1, h2⟩, h3⟩, h4⟩ := hd
            have b1 := digit_toNat_sub_le c1 h1
            have b2 := digit_toNat_sub_le c2 h2
            have b3 := digit_toNat_sub_le c3 h3
            have b4 := digit_toNat_sub_le c4 h4
            have hv : v = ((c1.toNat - 48) * 10 + (c2.toNat - 48)) * 10 * 10 +
                (c3.toNat - 48) * 10 + (c4.toNat - 48) := by
              simpa [digitsVal, Nat.mul_add, Nat.add_mul, Nat.mul_assoc,
                Nat.mul_comm, Nat.mul_left_comm] using (Option.some.inj h).symm
            omega
          · rw [if_neg hd] at h
            exact ih h

/-- **C6 (amended).**  Every row of the cleaned observation table has a
non-null year equal to the value of the first run of 4 digits in some
input row's raw year text — hence at most 9999, but possibly below 1000
when the run has leading zeros — and every input row whose year text has
no 4-digit run is dropped entirely rather than defaulted. -/
theorem claim_C6_year_extraction (obs : List ObsRow) :
    (∀ r ∈ cleanObs obs,
      r.year ≤ 9999 ∧ ∃ o ∈ obs, extractYear o.yearRaw = some r.year) ∧
    (∀ o ∈ obs, extractYear o.yearRaw = none → cleanObsRow o = none) := by
  constructor
  · intro r hr
    obtain ⟨o, ho, hco⟩ := List.mem_filterMap.mp hr
    obtain ⟨y, hy, hmap⟩ := Option.map_eq_some'.mp hco
    refine ⟨?_, o, ho, ?_⟩
    · have : r.year = y := by rw [← hmap]
      exact this ▸ yearRun_le _ _ hy
    · have : r.year = y := by rw [← hmap]
      rw [this]
      exact hy
  · intro o _ hn
    rw [cleanObsRow, extractYear] at *
    rw [hn]
    rfl

/-- **C6 witness**: the amended theorem applied to a two-row input, one
decorated year and one with no 4-digit run. -/
theorem claim_C6_year_extraction_witness :
    (∀ r ∈ cleanObs [⟨"AAA", "Springfield", "FY 2020*", "100", "10", "1"⟩,
        ⟨"BBB", "Springfield", "n/a", "200", "20", "2"⟩],
      r.year ≤ 9999 ∧
        ∃ o ∈ [⟨"AAA", "Springfield", "FY 2020*", "100", "10", "1"⟩,
          (⟨"BBB", "Springfield", "n/a", "200", "20", "2"⟩ : ObsRow)],
            extractYear o.yearRaw = some r.year) ∧
    (∀ o ∈ [⟨"AAA", "Springfield", "FY 2020*", "100", "10", "1"⟩,
        (⟨"BBB", "Springfield", "n/a", "200", "20", "2"⟩ : ObsRow)],
      extractYear o.yearRaw = none → cleanObsRow o = none) :=
  claim_C6_year_extraction _

/-- **C7.**  The fare coercion parses `"$1,234.50"` to 1234.50 (currency
symbol and thousands separator stripped) and `"N/A"` to null — not to
zero, and without failing (the coercion is a total function). -/
theorem claim_C7_currency_parse :
    parseFare "$1,234.50" = some (1234.50 : ℚ) ∧
    parseFare "N/A" = none ∧ parseFare "N/A" ≠ some 0 := by
  refine ⟨?_, rfl, by decide⟩
  rw [show parseFare "$1,234.50" = some ((1234 : ℚ) + 50 / 10 ^ 2) from rfl]
  norm_num

/-- Every row of a ranked table carries one plus the number of rows of
that same table with strictly greater total. -/
theorem addRank_rank_eq (data : List CityAgg) :
    ∀ r ∈ addRank data,
      r.rank = 1 + (addRank data).countP (fun s => decide (r.total < s.total)) := by
  intro r hr
  rw [addRank] at hr
  obtain ⟨r0, hr0, rfl⟩ := List.mem_map.mp hr
  simp only [addRank, List.countP_map]
  rfl

/-- The three-city aggregate with totals 500, 500, 300 used by the rank
tie scenario. -/
def rankDemoAgg : List AggRow :=
  [⟨2020, "X", 1, 1, 500, 0, 0, none⟩, ⟨2020, "Y", 2, 2, 500, 0, 0, none⟩,
    ⟨2020, "Z", 3, 3, 300, 0, 0, some 80⟩]

/-- **C3.**  The `Rank` column of every returned view is the
min/competition rank over total passengers descending: each row's rank
is the count of rows with strictly greater total plus one, tied totals
share one rank, and the totals [500, 500, 300] rank as [1, 1, 3]. -/
theorem claim_C3_min_rank (agg : List AggRow) (yopt nopt : Option Nat)
    (copt : Option String) :
    (∀ r ∈ createMap agg yopt nopt copt,
      r.rank = 1 + (createMap agg yopt nopt copt).countP
        (fun s => decide (r.total < s.total))) ∧
    (∀ r1 ∈ createMap agg yopt nopt copt, ∀ r2 ∈ createMap agg yopt nopt copt,
      r1.total = r2.total → r1.rank = r2.rank) ∧
    (createMap rankDemoAgg (some 2020) none none).map (·.rank) = [1, 1, 3] := by
  refine ⟨addRank_rank_eq _, ?_, by decide⟩
  intro r1 h1 r2 h2 ht
  rw [addRank_rank_eq _ r1 h1, addRank_rank_eq _ r2 h2, ht]

/-- **C3 witness**: the rank law applied to the top row of the tie
scenario. -/
theorem claim_C3_min_rank_witness :
    ((⟨"X", 1, 1, 500, 0, 0, 100, 1⟩ : ViewRow).rank =
      1 + (createMap rankDemoAgg (some 2020) none none).countP
        (fun s => decide ((⟨"X", 1, 1, 500, 0, 0, 100, 1⟩ : ViewRow).total < s.total))) ∧
    (createMap rankDemoAgg (some 2020) none none).map (·.rank) = [1, 1, 3] := by
  have h := claim_C3_min_rank rankDemoAgg (some 2020) none none
  exact ⟨h.1 _ (by decide), h.2.2⟩

/-- The one-row aggregate with a null fare used by the fare-defaulting
scenario. -/
def fareDemoAgg : List AggRow := [⟨2020, "X", 1, 2, 500, 0, 0, none⟩]

/-- **C5.**  Null-fare defaulting is presentation-time only: every
returned row shows `getD 100` of the fare of an underlying selected row
(so a null aggregated fare shows exactly 100), the cached aggregate
passed in state comes back unchanged, and calling the ranking again on
that returned state reproduces the same view. -/
theorem claim_C5_fare_defaulting (agg : List AggRow) (yopt nopt : Option Nat)
    (copt : Option String) :
    (∀ v ∈ createMap agg yopt nopt copt,
      ∃ r ∈ selectRows (baseData agg yopt) nopt copt,
        v.fare = r.fare.getD 100 ∧ (r.fare = none → v.fare = 100)) ∧
    (createMapSt agg yopt nopt copt).2 = agg ∧
    createMap ((createMapSt agg yopt nopt copt).2) yopt nopt copt =
      createMap agg yopt nopt copt := by
  refine ⟨?_, rfl, rfl⟩
  intro v hv
  rw [createMap, addRank] at hv
  obtain ⟨r, hr, rfl⟩ := List.mem_map.mp hv
  exact ⟨r, hr, rfl, fun h => by simp [h]⟩

/-- **C5 witness**: the defaulting law applied to a one-row aggregate
whose fare is null; the returned row shows 100 and the state is
unchanged. -/
theorem claim_C5_fare_defaulting_witness :
    (∃ r ∈ selectRows (baseData fareDemoAgg (some 2020)) none none,
      (⟨"X", 1, 2, 500, 0, 0, 100, 1⟩ : ViewRow).fare = r.fare.getD 100 ∧
        (r.fare = none → (⟨"X", 1, 2, 500, 0, 0, 100, 1⟩ : ViewRow).fare = 100)) ∧
    (createMapSt fareDemoAgg (some 2020) none none).2 = fareDemoAgg := by
  have h := claim_C5_fare_defaulting fareDemoAgg (some 2020) none none
  exact ⟨h.1 ⟨"X", 1, 2, 500, 0, 0, 100, 1⟩ (by decide), h.2.1⟩

/-- In a table sorted non-increasingly by `t`, no row after position `n`
exceeds a row kept by `take n`. -/
theorem countP_lt_drop_eq_zero {α : Type} (t : α → ℚ) (l : List α) (n : Nat)
    (hs : l.Pairwise (fun x y => t y ≤ t x)) {r : α} (hr : r ∈ l.take n) :
    (l.drop n).countP (fun s => decide (t r < t s)) = 0 := by
  rw [List.countP_eq_zero]
  intro s hsmem
  have hp : (l.take n ++ l.drop n).Pairwise (fun x y => t y ≤ t x) := by
    rw [List.take_append_drop]
    exact hs
  have hle : t s ≤ t r := (List.pairwise_append.mp hp).2.2 r hr s hsmem
  simpa using not_lt.mpr hle

/-- In a table sorted non-increasingly by `t`, counting strictly greater
rows inside the `take n` prefix equals counting them in the whole
table. -/
theorem countP_lt_take_eq {α : Type} (t : α → ℚ) (l : List α) (n : Nat)
    (hs : l.Pairwise (fun x y => t y ≤ t x)) {r : α} (hr : r ∈ l.take n) :
    (l.take n).countP (fun s => decide (t r < t s)) =
      l.countP (fun s => decide (t r < t s)) := by
  conv_rhs => rw [← List.take_append_drop n l]
  rw [List.countP_append, countP_lt_drop_eq_zero t l n hs hr, Nat.add_zero]

/-- The output of the model's `sort_values` is non-increasing in total
passengers. -/
theorem sortDesc_sorted (l : List CityAgg) :
    (sortDesc l).Pairwise (fun a b => b.total ≤ a.total) := by
  haveI : IsTotal CityAgg (fun a b => b.total ≤ a.total) :=
    ⟨fun a b => le_total b.total a.total⟩
  haveI : IsTrans CityAgg (fun a b => b.total ≤ a.total) :=
    ⟨fun a b c hab hbc => le_trans hbc hab⟩
  exact List.sorted_insertionSort _ l

/-- The model's `sort_values` permutes its table. -/
theorem sortDesc_perm (l : List CityAgg) : (sortDesc l).Perm l :=
  List.perm_insertionSort _ l

/-- **C10.**  Because the table is sorted by total passengers descending
before `head(top_n)`, every row with a strictly greater total than a
retained row is itself retained, so the min-rank computed on the
truncated table equals the min-rank the full untruncated table would
give each surviving row. -/
theorem claim_C10_truncate_rank_commute (agg : List AggRow) (yopt : Option Nat)
    (n : Nat) (hn : n ≠ 0) :
    ∀ r ∈ createMap agg yopt (some n) none,
      r.rank = 1 + (baseData agg yopt).countP
        (fun s => decide (r.total < s.total)) := by
  intro r hr
  have hsel : selectRows (baseData agg yopt) (some n) none =
      (sortDesc (baseData agg yopt)).take n := by
    simp [selectRows, selectTop, hn]
  rw [createMap, hsel, addRank] at hr
  obtain ⟨r0, hr0, rfl⟩ := List.mem_map.mp hr
  show 1 + ((sortDesc (baseData agg yopt)).take n).countP
      (fun s => decide (r0.total < s.total)) = _
  rw [countP_lt_take_eq CityAgg.total _ n (sortDesc_sorted _) hr0,
    (sortDesc_perm (baseData agg yopt)).countP_eq]

/-- **C10 witness**: with totals [500, 500, 300] and `top_n = 2`, the top
row's rank on the truncated table already equals its full-table
min-rank. -/
theorem claim_C10_truncate_rank_commute_witness :
    (⟨"X", 1, 1, 500, 0, 0, 100, 1⟩ : ViewRow).rank =
      1 + (baseData rankDemoAgg (some 2020)).countP
        (fun s => decide ((⟨"X", 1, 1, 500, 0, 0, 100, 1⟩ : ViewRow).total < s.total)) :=
  claim_C10_truncate_rank_commute rankDemoAgg (some 2020) 2 (by decide) _ (by decide)

theorem claim_C2_anchor_union (full : List ViewRow) (a : ViewRow)
    (hs : full.Pairwise (fun x y => y.total ≤ x.total))
    (h5 : 5 ≤ full.length)
    (ha : full.filter (fun r => r.city == "Atlanta") = [a]) :
    (minRank full a = 8 →
      (anchorUnion full 5 ["Atlanta"]).length = 6 ∧
      (anchorUnion full 5 ["Atlanta"]).countP (fun r => r.city == "Atlanta") = 1) ∧
    (a ∈ full.take 5 →
      (anchorUnion full 5 ["Atlanta"]).length = 5 ∧
      (anchorUnion full 5 ["Atlanta"]).countP (fun r => r.city == "Atlanta") = 1) := by
  have h0 : a ∈ full.filter (fun r => r.city == "Atlanta") := by
    rw [ha]; exact List.mem_singleton_self a
  have hafull : a ∈ full := List.mem_of_mem_filter h0
  have haP : (a.city == "Atlanta") = true := (List.mem_filter.mp h0).2
  have hsplitA : anchorUnion full 5 ["Atlanta"] =
      full.take 5 ++ (full.filter (fun r => r.city == "Atlanta")).filter
        (fun r => !((full.take 5).contains r)) := by
    rw [anchorUnion, List.filter_filter]
    congr 1
    apply List.filter_congr
    intro x _
    cases hcon : (full.take 5).contains x <;>
      simp [List.contains_cons, hcon, Bool.and_comm, Bool.beq_eq_decide_eq]
  constructor
  · -- Atlanta ranked 8: outside the truncation, appended once.
    intro h8
    have hcount : full.countP (fun s => decide (a.total < s.total)) = 7 := by
      rw [minRank] at h8; omega
    have hnotmem : a ∉ full.take 5 := by
      intro hmem
      have hdrop := countP_lt_drop_eq_zero ViewRow.total full 5 hs hmem
      obtain ⟨s, t', hst⟩ := List.append_of_mem hmem
      have htake : (full.take 5).countP (fun x => decide (a.total < x.total)) ≤ 4 := by
        rw [hst, List.countP_append, List.countP_cons]
        have hfalse : (decide (a.total < a.total)) = false := by simp
        rw [hfalse]
        have hlen : s.length + t'.length + 1 ≤ 5 := by
          have hl5 := List.length_take_le 5 full
          rw [hst] at hl5
          simp only [List.length_append, List.length_cons] at hl5
          omega
        have hcs := List.countP_le_length (l := s) (p := fun x => decide (a.total < x.total))
        have hct := List.countP_le_length (l := t') (p := fun x => decide (a.total < x.total))
        simp only [if_false, Bool.false_eq_true]
        omega
      have hfull4 : full.countP (fun x => decide (a.total < x.total)) ≤ 4 := by
        conv_lhs => rw [← List.take_append_drop 5 full]
        rw [List.countP_append, hdrop]
        omega
      omega
    have hfil : ([a] : List ViewRow).filter
        (fun r => !((full.take 5).contains r)) = [a] := by
      simp [hnotmem]
    rw [hsplitA, ha, hfil]
    constructor
    · simp [List.length_append, List.length_take, Nat.min_eq_left h5]
    · rw [List.countP_append]
      have hz : (full.take 5).countP (fun r => r.city == "Atlanta") = 0 := by
        rw [List.countP_eq_zero]
        intro x hx hPx
        have hxfull : x ∈ full := (List.take_sublist 5 full).subset hx
        have hxf : x ∈ full.filter (fun r => r.city == "Atlanta") :=
          List.mem_filter.mpr ⟨hxfull, hPx⟩
        rw [ha] at hxf
        exact hnotmem (List.mem_singleton.mp hxf ▸ hx)
      rw [hz]
      simp [haP]
  · -- Atlanta already in the top 5: nothing appended, still exactly once.
    intro hmem
    have hfil : ([a] : List ViewRow).filter
        (fun r => !((full.take 5).contains r)) = [] := by
      simp [hmem]
    rw [hsplitA, ha, hfil, List.append_nil]
    constructor
    · simp [List.length_take, Nat.min_eq_left h5]
    · have h1 : full.countP (fun r => r.city == "Atlanta") = 1 := by
        rw [List.countP_eq_length_filter, ha]
        rfl
      have hle : (full.take 5).countP (fun r => r.city == "Atlanta") ≤ 1 :=
        h1 ▸ (List.take_sublist 5 full).countP_le (p := fun r => r.city == "Atlanta")
      have hge : 0 < (full.take 5).countP (fun r => r.city == "Atlanta") :=
        List.countP_pos_iff.mpr ⟨a, hmem, haP⟩
      omega

def atlantaRow : ViewRow := ⟨"Atlanta", 1, 1, 150, 0, 0, 100, 8⟩

def anchorDemoView : List ViewRow :=
  [⟨"C1", 1, 1, 800, 0, 0, 100, 1⟩, ⟨"C2", 1, 1, 700, 0, 0, 100, 2⟩,
    ⟨"C3", 1, 1, 600, 0, 0, 100, 3⟩, ⟨"C4", 1, 1, 500, 0, 0, 100, 4⟩,
    ⟨"C5", 1, 1, 400, 0, 0, 100, 5⟩, ⟨"C6", 1, 1, 300, 0, 0, 100, 6⟩,
    ⟨"C7", 1, 1, 200, 0, 0, 100, 7⟩, atlantaRow]

theorem claim_C2_anchor_union_witness :
    (anchorUnion anchorDemoView 5 ["Atlanta"]).length = 6 ∧
    (anchorUnion anchorDemoView 5 ["Atlanta"]).countP
      (fun r => r.city == "Atlanta") = 1 :=
  (claim_C2_anchor_union anchorDemoView atlantaRow (by decide) (by decide)
    (by decide)).1 (by decide)

/-- Summing a nullable column is invariant under permutation. -/
theorem sumOpt_perm {l1 l2 : List (Option ℚ)} (h : l1.Perm l2) :
    sumOpt l1 = sumOpt l2 := by
  rw [sumOpt, sumOpt]
  exact (h.filterMap id).sum_eq

/-- Averaging a nullable column is invariant under permutation. -/
theorem meanOpt_perm {l1 l2 : List (Option ℚ)} (h : l1.Perm l2) :
    meanOpt l1 = meanOpt l2 := by
  have hv := h.filterMap id
  simp only [meanOpt]
  have he : (l1.filterMap id).isEmpty = (l2.filterMap id).isEmpty := by
    rcases h1 : l1.filterMap id with _ | ⟨x, xs⟩
    · rw [h1] at hv
      rw [← hv.nil_eq]
    · rw [h1] at hv
      rcases h2 : l2.filterMap id with _ | ⟨z, zs⟩
      · rw [h2] at hv
        exact absurd hv.symm.nil_eq (by simp)
      · rfl
  rw [he, hv.sum_eq, hv.length_eq]

/-- The aggregate row of a key only depends on the multiset of joined
rows. -/
theorem aggFor_congr (rows1 rows2 : List JoinedRow) (h : rows1.Perm rows2)
    (k : AggKey) : aggFor rows1 k = aggFor rows2 k := by
  have hf : (rows1.filter (fun r => rowKey r == k)).Perm
      (rows2.filter (fun r => rowKey r == k)) := h.filter _
  simp only [aggFor]
  rw [sumOpt_perm (hf.map (·.total)), sumOpt_perm (hf.map (·.dom)),
    sumOpt_perm (hf.map (·.intl)), meanOpt_perm (hf.map (·.fare))]

/-- Grouping commutes with permuting the joined table. -/
theorem groupAgg_perm (rows1 rows2 : List JoinedRow) (h : rows1.Perm rows2) :
    (groupAgg rows1).Perm (groupAgg rows2) := by
  rw [groupAgg, groupAgg]
  have hk : ((rows1.map rowKey).dedup).Perm ((rows2.map rowKey).dedup) :=
    (h.map _).dedup
  rw [List.map_congr_left (fun k _ => aggFor_congr rows1 rows2 h k)]
  exact hk.map _

/-- Cleaning and the two joins preserve permutation of the input rows. -/
theorem joined_perm (obs1 obs2 : List ObsRow) (coords : List CoordRow)
    (fares : List FareRow) (h : obs1.Perm obs2) :
    (joinFare (joinCoords (cleanObs obs1) coords) fares).Perm
      (joinFare (joinCoords (cleanObs obs2) coords) fares) := by
  have h1 : (cleanObs obs1).Perm (cleanObs obs2) := h.filterMap _
  have h2 : (joinCoords (cleanObs obs1) coords).Perm
      (joinCoords (cleanObs obs2) coords) := by
    rw [joinCoords, joinCoords]
    exact h1.flatMap_right _
  rw [joinFare, joinFare]
  exact h2.flatMap_right _

/-- **C8.**  Aggregation is order-independent: permuting the observation
rows permutes the AnnualAggregate (same rows up to order), and the
aggregate has exactly one row per (year, city, latitude, longitude)
key. -/
theorem claim_C8_order_independence (obs1 obs2 : List ObsRow)
    (coords : List CoordRow) (fares : List FareRow) (h : obs1.Perm obs2) :
    (annualAggregate obs1 coords fares).Perm (annualAggregate obs2 coords fares) ∧
    ((annualAggregate obs1 coords fares).map
      (fun r => (r.year, r.city, r.latitude, r.longitude))).Nodup := by
  constructor
  · exact groupAgg_perm _ _ (joined_perm obs1 obs2 coords fares h)
  · rw [annualAggregate, groupAgg, List.map_map]
    have hid : ((fun r : AggRow => (r.year, r.city, r.latitude, r.longitude)) ∘
        aggFor (joinFare (joinCoords (cleanObs obs1) coords) fares)) = id := by
      funext k
      obtain ⟨y, c, la, lo⟩ := k
      rfl
    rw [hid, List.map_id]
    exact List.nodup_dedup _

/-- **C8 witness**: swapping the two Springfield observation rows. -/
theorem claim_C8_order_independence_witness :
    (annualAggregate [obsA, obsB] coordsDistinct []).Perm
      (annualAggregate [obsB, obsA] coordsDistinct []) ∧
    ((annualAggregate [obsA, obsB] coordsDistinct []).map
      (fun r => (r.year, r.city, r.latitude, r.longitude))).Nodup :=
  claim_C8_order_independence [obsA, obsB] [obsB, obsA] coordsDistinct []
    (by decide)

/-- The city/location key of a collapsed all-years row. -/
def cityKeyC (r : CityAgg) : String × ℚ × ℚ := (r.city, r.latitude, r.longitude)

/-- The summed total of one key's rows for one year in the cached
aggregate. -/
def perYearTotal (agg : List AggRow) (y : Nat) (k : String × ℚ × ℚ) : ℚ :=
  ((agg.filter (fun r => cityKey r == k && r.year == y)).map (·.total)).sum

/-- Partitioning a row list by year: summing the per-year filtered sums
over any year set covering the list gives the whole sum. -/
theorem sum_filter_year (l : List AggRow) (s : Finset Nat)
    (hmem : ∀ x ∈ l, x.year ∈ s) :
    (∑ y ∈ s, ((l.filter (fun r => r.year == y)).map (·.total)).sum) =
      (l.map (·.total)).sum := by
  induction l with
  | nil => simp
  | cons a t ih =>
      have ha : a.year ∈ s := hmem a (by simp)
      have ht : ∀ x ∈ t, x.year ∈ s := fun x hx => hmem x (by simp [hx])
      have hstep : ∀ y ∈ s,
          ((List.filter (fun r => r.year == y) (a :: t)).map (·.total)).sum =
            (if a.year = y then a.total else 0) +
              ((t.filter (fun r => r.year == y)).map (·.total)).sum := by
        intro y _
        by_cases hy : a.year = y
        · simp [List.filter_cons, hy]
        · simp [List.filter_cons, hy]
      rw [Finset.sum_congr rfl hstep, Finset.sum_add_distrib, ih ht,
        Finset.sum_ite_eq s a.year (fun _ => a.total), if_pos ha]
      simp

/-- **C9.**  For every key present in the aggregate, the all-years
regroup has a row for that key whose total equals the sum, across the
years occurring in the aggregate, of that key's per-year totals. -/
theorem claim_C9_all_years (agg : List AggRow) (k : String × ℚ × ℚ)
    (hk : k ∈ (agg.map cityKey).dedup) :
    ∃ row ∈ regroupAllYears agg,
      cityKeyC row = k ∧
      row.total = ∑ y ∈ ((agg.map (·.year)).toFinset), perYearTotal agg y k := by
  refine ⟨_, List.mem_map_of_mem _ hk, ?_, ?_⟩
  · obtain ⟨c, la, lo⟩ := k
    rfl
  · show ((agg.filter (fun r => cityKey r == k)).map (·.total)).sum = _
    have hff : ∀ y : Nat,
        agg.filter (fun r => cityKey r == k && r.year == y) =
          (agg.filter (fun r => cityKey r == k)).filter (fun r => r.year == y) := by
      intro y
      rw [List.filter_filter]
      apply List.filter_congr
      intro x _
      rw [Bool.and_comm]
    rw [Finset.sum_congr rfl (fun y _ => by rw [perYearTotal, hff y]),
      sum_filter_year]
    intro x hx
    exact List.mem_toFinset.mpr
      (List.mem_map_of_mem _ (List.mem_of_mem_filter hx))

/-- A two-year aggregate for one city used by the all-years scenario. -/
def allYearsDemoAgg : List AggRow :=
  [⟨2020, "X", 1, 2, 100, 0, 0, none⟩, ⟨2021, "X", 1, 2, 50, 0, 0, none⟩]

/-- **C9 witness**: the all-years law at a two-year, one-city
aggregate. -/
theorem claim_C9_all_years_witness :
    ∃ row ∈ regroupAllYears allYearsDemoAgg,
      cityKeyC row = ("X", 1, 2) ∧
      row.total = ∑ y ∈ ((allYearsDemoAgg.map (·.year)).toFinset),
        perYearTotal allYearsDemoAgg y ("X", 1, 2) :=
  claim_C9_all_years allYearsDemoAgg ("X", 1, 2) (by decide)

end FlightData
